import Mathlib

/-!
Shallow embedding of the polars IPC ingestion slice: the fixed-size-list array
decoder and skip walker (crates/polars-arrow/src/io/ipc/read/array/fixed_size_list.rs),
the IPC file reader orchestration (crates/polars-io/src/ipc/ipc_file.rs), and the
TimeUnit conversions (crates/polars-core/src/datatypes/temporal/time_unit.rs).

Rust VecDeque queues are Lean lists (pop_front = head); Rust Result is the PResult
inductive below; machine integers are Nat with explicit saturation where the code
saturates. Functions that live outside the visible source tree (the read/skip
dispatchers, read_validity, try_get_field_node, FixedSizeListArray::try_new, and
the file-level collaborators) are modelled from the spec, as marked on each
definition.
-/

namespace Polars

/-- Error values. The polars error type is not under the visible sources; per the
spec error taxonomy, corruption (out-of-spec, `oos`), unsupported feature
(`nyi`), generic compute errors and I/O errors are distinguishable variants. -/
inductive PolarsError where
  | oos (msg : String)
  | nyi (msg : String)
  | computeError (msg : String)
  | ioError (msg : String)
deriving DecidableEq, Repr

/-- Rust `PolarsResult<A> = Result<A, PolarsError>`. -/
inductive PResult (α : Type) where
  | ok (val : α)
  | err (error : PolarsError)
deriving DecidableEq, Repr

/-- Arrow IPC field node: declared row count and declared null count
(one node per column or nested sub-column, in pre-order). -/
structure Node where
  length : Nat
  nullCount : Nat
deriving DecidableEq, Repr

/-- One physical IPC buffer. A buffer is raw bytes in the source; here it carries
its two possible decoded views: a validity bitmap (`bits`) and a primitive
values payload (`ints`). Which view a decoder uses depends on the slot. -/
structure IpcBuffer where
  bits : List Bool
  ints : List Int
deriving DecidableEq, Repr

/-- The three mutually advancing queues threaded through every decoder:
field nodes, buffers, and variadic buffer counts (the last is only consumed by
view types, which do not occur among the types modelled here). -/
structure IpcQueues where
  fieldNodes : List Node
  buffers : List IpcBuffer
  variadicBufferCounts : List Nat
deriving DecidableEq, Repr

/-- The logical types needed by the claims: a primitive leaf and the
fixed-size-list nested type carrying its child type and fixed width. -/
inductive ArrowDataType where
  | int32
  | fixedSizeList (child : ArrowDataType) (size : Nat)
deriving DecidableEq, Repr

/-- Decoded arrays for the modelled types. A fixed-size-list array stores its
dtype, its logical length, its child values array and its optional validity. -/
inductive ArrowArray where
  | int32Arr (values : List Int) (validity : Option (List Bool))
  | fixedSizeListArr (dtype : ArrowDataType) (length : Nat) (values : ArrowArray)
      (validity : Option (List Bool))
deriving DecidableEq, Repr

/-- `Array::len`: logical length of a decoded array. -/
def ArrowArray.len : ArrowArray → Nat
  | .int32Arr values _ => values.length
  | .fixedSizeListArr _ length _ _ => length

/-- Largest value of the Rust `usize` type (64-bit targets). -/
def USIZE_MAX : Nat := 2 ^ 64 - 1

/-- Rust `usize::saturating_mul`: multiplication clamped at `usize::MAX`. -/
def saturating_mul (a b : Nat) : Nat := min (a * b) USIZE_MAX

/-- The limit handed to the child decoder of a fixed-size list, from
`limit.map(|x| x.saturating_mul(size))` in `read_fixed_size_list`. -/
def fsl_child_limit (limit : Option Nat) (size : Nat) : Option Nat :=
  limit.map fun x => saturating_mul x size

/-- `FixedSizeListArray::get_child_and_size`: destructure a fixed-size-list
dtype into its child type and width. The source panics on any other dtype;
that unreachable branch is modelled by a junk value. -/
def get_child_and_size : ArrowDataType → ArrowDataType × Nat
  | .fixedSizeList child size => (child, size)
  | t => (t, 0)

/-- Modelled from the spec: `try_get_field_node` (declared in the unshown
`read/array/mod.rs`) pops one field node from the front of the node queue and
fails with a corruption error if the queue is empty. -/
def try_get_field_node (fieldNodes : List Node) :
    PResult (Node × List Node) :=
  match fieldNodes with
  | [] => .err (.oos "IPC: unable to fetch the field node. The file or stream is corrupted.")
  | n :: rest => .ok (n, rest)

/-- Row count actually materialized for one node: the declared length truncated
by the optional limit, `limit.map_or(length, |l| l.min(length))`. -/
def limited_length (node : Node) (limit : Option Nat) : Nat :=
  match limit with
  | none => node.length
  | some l => min l node.length

/-- Modelled from the spec: `read_validity` (in the unshown `read_basic.rs`)
pops exactly one buffer slot; if the declared null count is zero it returns no
bitmap, otherwise it reads a bitmap of the limit-truncated declared length,
failing when the buffer holds fewer bits. Popping an empty queue is a
corruption error. -/
def read_validity (buffers : List IpcBuffer) (node : Node) (limit : Option Nat) :
    PResult (Option (List Bool) × List IpcBuffer) :=
  match buffers with
  | [] => .err (.oos "IPC: unable to fetch a buffer. The file or stream is corrupted.")
  | b :: rest =>
    if 0 < node.nullCount then
      let len := limited_length node limit
      if b.bits.length < len then
        .err (.oos "IPC: validity bitmap shorter than the declared length.")
      else
        .ok (some (b.bits.take len), rest)
    else
      .ok (none, rest)

/-- Modelled from the spec: the primitive leaf decoder (the unshown
`read_primitive`). It pops one field node, reads validity through one buffer
slot, then pops one values buffer and materializes the limit-truncated declared
number of values, failing on queue exhaustion or a short buffer. -/
def read_primitive (q : IpcQueues) (limit : Option Nat) :
    PResult (ArrowArray × IpcQueues) :=
  match try_get_field_node q.fieldNodes with
  | .err e => .err e
  | .ok (node, nodes1) =>
    match read_validity q.buffers node limit with
    | .err e => .err e
    | .ok (validity, buffers1) =>
      match buffers1 with
      | [] => .err (.oos "IPC: unable to fetch a buffer. The file or stream is corrupted.")
      | b :: rest =>
        let len := limited_length node limit
        if b.ints.length < len then
          .err (.oos "IPC: values buffer shorter than the declared length.")
        else
          .ok (.int32Arr (b.ints.take len) validity,
               { q with fieldNodes := nodes1, buffers := rest })

/-- Modelled from the spec: `FixedSizeListArray::try_new` (the array
constructor, not under the visible sources). Its arguments at the call site are
only `(dtype, length, values, validity)`; per the spec it validates that the
child length is an exact multiple of the declared width, i.e.
`values.len = length * size`, and that a present validity bitmap has exactly
`length` bits. It has no access to the field node, so it cannot compare
against the node declared length directly. -/
def fixedSizeList_try_new (dtype : ArrowDataType) (length : Nat)
    (values : ArrowArray) (validity : Option (List Bool)) : PResult ArrowArray :=
  let size := (get_child_and_size dtype).2
  if values.len ≠ length * size then
    .err (.computeError "FixedSizeListArray: length of values is not a multiple of size")
  else
    match validity with
    | some v =>
      if v.length ≠ length then
        .err (.computeError "FixedSizeListArray: validity mask length must match the number of elements")
      else
        .ok (.fixedSizeListArr dtype length values validity)
    | none => .ok (.fixedSizeListArr dtype length values validity)

/-- Modelled from the spec: the `read` dispatcher (the unshown
`deserialize.rs`) dispatches on the logical type; its fixed-size-list branch is
the body of `read_fixed_size_list` from the visible source, inlined here so the
recursion is structural on the dtype (the standalone `read_fixed_size_list`
below is proved definitionally equal to this branch). -/
def read : IpcQueues → ArrowDataType → Option Nat → PResult (ArrowArray × IpcQueues)
  | q, .int32, limit => read_primitive q limit
  | q, .fixedSizeList field size, limit =>
    match try_get_field_node q.fieldNodes with
    | .err e => .err e
    | .ok (field_node, nodes1) =>
      match read_validity q.buffers field_node limit with
      | .err e => .err e
      | .ok (validity, buffers1) =>
        if size = 0 then
          .err (.nyi "Cannot read zero sized arrays from IPC")
        else
          match read { fieldNodes := nodes1, buffers := buffers1,
                       variadicBufferCounts := q.variadicBufferCounts }
                  field (fsl_child_limit limit size) with
          | .err e => .err e
          | .ok (values, q2) =>
            match fixedSizeList_try_new (.fixedSizeList field size)
                    (values.len / size) values validity with
            | .err e => .err e
            | .ok arr => .ok (arr, q2)

/-- `read_fixed_size_list` from
`polars-arrow/src/io/ipc/read/array/fixed_size_list.rs`: pop one field node
(corruption error if exhausted), read the validity through one buffer slot,
extract the child type and width, reject width zero as not yet implemented,
scale the limit by `saturating_mul`, recursively read the child, and construct
the array with logical length `values.len() / size` through
`FixedSizeListArray::try_new`. -/
def read_fixed_size_list (q : IpcQueues) (dtype : ArrowDataType)
    (limit : Option Nat) : PResult (ArrowArray × IpcQueues) :=
  match try_get_field_node q.fieldNodes with
  | .err e => .err e
  | .ok (field_node, nodes1) =>
    match read_validity q.buffers field_node limit with
    | .err e => .err e
    | .ok (validity, buffers1) =>
      let fs := get_child_and_size dtype
      if fs.2 = 0 then
        .err (.nyi "Cannot read zero sized arrays from IPC")
      else
        match read { fieldNodes := nodes1, buffers := buffers1,
                     variadicBufferCounts := q.variadicBufferCounts }
                fs.1 (fsl_child_limit limit fs.2) with
        | .err e => .err e
        | .ok (values, q2) =>
          match fixedSizeList_try_new dtype (values.len / fs.2) values validity with
          | .err e => .err e
          | .ok arr => .ok (arr, q2)

/-- Modelled from the spec: the primitive skip walker (the unshown
`skip_primitive`): pop one field node, one validity buffer slot and one values
buffer slot, each failing with a corruption error if its queue is exhausted. -/
def skip_primitive (q : IpcQueues) : PResult IpcQueues :=
  match q.fieldNodes with
  | [] => .err (.oos "IPC: unable to fetch the field node. The file or stream is corrupted.")
  | _ :: nodes =>
    match q.buffers with
    | [] => .err (.oos "IPC: missing validity buffer.")
    | _ :: b1 =>
      match b1 with
      | [] => .err (.oos "IPC: missing values buffer.")
      | _ :: b2 => .ok { q with fieldNodes := nodes, buffers := b2 }

/-- Modelled from the spec: the `skip` dispatcher (the unshown
`deserialize.rs`), with the fixed-size-list branch of the visible
`skip_fixed_size_list` inlined for structural recursion (the standalone
definition below is proved definitionally equal). -/
def skip : IpcQueues → ArrowDataType → PResult IpcQueues
  | q, .int32 => skip_primitive q
  | q, .fixedSizeList field _ =>
    match q.fieldNodes with
    | [] => .err (.oos "IPC: unable to fetch the field for fixed-size list. The file or stream is corrupted.")
    | _ :: nodes =>
      match q.buffers with
      | [] => .err (.oos "IPC: missing validity buffer.")
      | _ :: bufs =>
        skip { q with fieldNodes := nodes, buffers := bufs } field

/-- `skip_fixed_size_list` from the visible source: pop one field node
(corruption error if the queue is empty), pop one validity buffer slot
(corruption error if missing), then recursively skip the child type. No check
on the width is performed. -/
def skip_fixed_size_list (q : IpcQueues) (dtype : ArrowDataType) :
    PResult IpcQueues :=
  match q.fieldNodes with
  | [] => .err (.oos "IPC: unable to fetch the field for fixed-size list. The file or stream is corrupted.")
  | _ :: nodes =>
    match q.buffers with
    | [] => .err (.oos "IPC: missing validity buffer.")
    | _ :: bufs =>
      skip { q with fieldNodes := nodes, buffers := bufs }
        (get_child_and_size dtype).1

/-- All fixed-size-list widths occurring in a dtype are positive. -/
def ArrowDataType.zero_free : ArrowDataType → Bool
  | .int32 => true
  | .fixedSizeList child size => decide (0 < size) && child.zero_free

/-! ## The IPC file reader (`polars-io/src/ipc/ipc_file.rs`) -/

/-- A row-index column specification (`RowIndex { name, offset }`). -/
structure RowIndexM where
  name : String
  offset : Nat
deriving DecidableEq, Repr

/-- A decoded DataFrame, abstracted to what the claims observe: its height and
its column names in order. -/
structure DataFrameM where
  height : Nat
  colNames : List String
deriving DecidableEq, Repr

/-- `DataFrame::empty_with_height`: no columns, the given height. -/
def DataFrameM.empty_with_height (h : Nat) : DataFrameM := ⟨h, []⟩

/-- `DataFrame::with_row_index_mut`: insert the row-index column at position 0.
The column values (offset, offset+1, ...) are abstracted away; the offset
parameter is kept from the call site. -/
def DataFrameM.with_row_index (df : DataFrameM) (name : String) (_offset : Nat) :
    DataFrameM :=
  ⟨df.height, name :: df.colNames⟩

/-- An Arrow schema, abstracted to its field names. -/
structure ArrowSchemaM where
  fields : List String
deriving DecidableEq, Repr

/-- Arrow IPC file metadata: the schema and the optional schema-level custom
metadata (key-value pairs). The record-batch index is not observed by any
claim and is omitted. -/
structure FileMetadataM where
  schema : ArrowSchemaM
  customSchemaMetadata : Option (List (String × String))
deriving DecidableEq, Repr

/-- The `IpcReader` struct together with a model of its underlying source.
The configuration fields mirror the Rust struct. The source behaviour of the
external collaborators is modelled from the spec as outcome fields, fixed per
reader: what `read_file_metadata` returns, whether the source is a real file,
what `finish_memmapped` returns, what `get_row_count` returns, what the
streaming `FileReader`/`finish_reader` pipeline returns, and what
`columns_to_projection` resolves the column names to. `readCount` counts the
metadata reads performed on the source, to observe caching. -/
structure IpcReaderM where
  rechunk : Bool
  n_rows : Option Nat
  projection : Option (List Nat)
  columns : Option (List String)
  hive_partition_columns : Option (List String)
  include_file_path : Option (String × String)
  row_index : Option RowIndexM
  memory_map : Option String
  metadata : Option FileMetadataM
  schema : Option ArrowSchemaM
  readCount : Nat
  readFileMetadataResult : PResult FileMetadataM
  readerIsFile : Bool
  mmapResult : PResult DataFrameM
  getRowCountResult : PResult Nat
  colsToProjResult : PResult (List Nat)
  streamResult : PResult DataFrameM
deriving DecidableEq, Repr

/-- `IpcReader::get_metadata`: if no metadata is cached, read it from the
source (recording the read), cache it together with its schema; then return
the cached metadata. -/
def IpcReaderM.get_metadata (r : IpcReaderM) : PResult (FileMetadataM × IpcReaderM) :=
  match r.metadata with
  | some m => .ok (m, r)
  | none =>
    match r.readFileMetadataResult with
    | .err e => .err e
    | .ok m =>
      .ok (m, { r with metadata := some m, schema := some m.schema,
                       readCount := r.readCount + 1 })

/-- `IpcReader::schema`: ensure the metadata is cached, then return the cached
schema. The source unwraps the cached option; the unwrap is total here because
`get_metadata` always fills the cache on success, and the impossible branch is
mapped to a default value. -/
def IpcReaderM.schemaFn (r : IpcReaderM) : PResult (ArrowSchemaM × IpcReaderM) :=
  match r.get_metadata with
  | .err e => .err e
  | .ok (_, r1) => .ok (r1.schema.getD ⟨[]⟩, r1)

/-- `IpcReader::custom_metadata`: ensure the metadata is cached, then return
its custom schema metadata. -/
def IpcReaderM.custom_metadata (r : IpcReaderM) :
    PResult (Option (List (String × String)) × IpcReaderM) :=
  match r.get_metadata with
  | .err e => .err e
  | .ok (_, r1) => .ok (r1.metadata.bind (fun m => m.customSchemaMetadata), r1)

/-- The exact error message the memory-mapped path produces on a compressed
file, matched by `check_mmap_err`. -/
def mmapErrMsg : String := "memory_map can only be done on uncompressed IPC files"

/-- The one-time diagnostic emitted when falling back from the memory-mapped
path to the streaming path. -/
def mmapWarning : String :=
  "Could not memory_map compressed IPC file, defaulting to normal read. Toggle off memory_map to silence this warning."

/-- `check_mmap_err`: if the error is exactly the compressed-file compute
error, emit one diagnostic and recover; otherwise re-raise the error.
Diagnostics (`eprintln`) are modelled as an output list. -/
def check_mmap_err (err : PolarsError) : List String × PResult Unit :=
  match err with
  | .computeError s =>
    if s = mmapErrMsg then ([mmapWarning], .ok ())
    else ([], .err (.computeError s))
  | e => ([], .err e)

/-- The error is specifically the compressed-memory-map compute error. -/
def isCompressedMmapErr : PolarsError → Bool
  | .computeError s => s = mmapErrMsg
  | _ => false

/-- Modelled from the spec: `materialize_hive_partitions` (an external
collaborator) appends the configured hive partition columns to the frame. -/
def materialize_hive_partitions (df : DataFrameM) (hive : Option (List String)) :
    DataFrameM :=
  match hive with
  | some cols => ⟨df.height, df.colNames ++ cols⟩
  | none => df

/-- `IpcReader::finish` (`SerReader::finish` impl): resolve the reader schema,
take the post-processing configuration, then run the inner closure — an
empty-but-present projection short-circuits to a column-less frame of the
correct height with the row index injected; otherwise, when memory mapping is
requested on a real file, try the memory-mapped path and on failure consult
`check_mmap_err` before falling back to the streaming path (metadata lookup,
column-name projection resolution, stream decode). Finally apply hive-column
materialization and file-path column injection. Returns the emitted
diagnostics alongside the result. -/
def IpcReaderM.finish (r0 : IpcReaderM) : List String × PResult DataFrameM :=
  match (match r0.schema with
         | some s => PResult.ok (s, r0)
         | none =>
           match r0.get_metadata with
           | .err e => .err e
           | .ok (m, r1) => .ok (m.schema, r1)) with
  | .err e => ([], .err e)
  | .ok (_, ra) =>
    let hive := ra.hive_partition_columns
    let filePath := ra.include_file_path
    let r := { ra with hive_partition_columns := none, include_file_path := none }
    let inner : List String × PResult DataFrameM :=
      if (match r.projection with
          | some p => p.isEmpty
          | none => false) then
        match (match r.n_rows with
               | some v => PResult.ok v
               | none => r.getRowCountResult) with
        | .err e => ([], .err e)
        | .ok rowCount =>
          let df := DataFrameM.empty_with_height rowCount
          let df := match r.row_index with
                    | some ri => df.with_row_index ri.name ri.offset
                    | none => df
          ([], .ok df)
      else
        match (if r.memory_map.isSome && r.readerIsFile then
                 match r.mmapResult with
                 | .ok df => ([], PResult.ok (some df))
                 | .err e =>
                   match check_mmap_err e with
                   | (w, .ok _) => (w, .ok none)
                   | (w, .err e2) => (w, .err e2)
               else ([], .ok none)) with
        | (w, .err e) => (w, .err e)
        | (w, .ok (some df)) => (w, .ok df)
        | (w, .ok none) =>
          match r.get_metadata with
          | .err e => (w, .err e)
          | .ok (_, r1) =>
            match (match r1.columns with
                   | some _ =>
                     (match r1.colsToProjResult with
                      | .err e => PResult.err e
                      | .ok prj => .ok (some prj))
                   | none => .ok none) with
            | .err e => (w, .err e)
            | .ok prjFromCols =>
              let r2 := match prjFromCols with
                        | some prj => { r1 with projection := some prj }
                        | none => r1
              match r2.get_metadata with
              | .err e => (w, .err e)
              | .ok (_, r3) =>
                match r3.streamResult with
                | .err e => (w, .err e)
                | .ok df => (w, .ok df)
    match inner with
    | (w, .err e) => (w, .err e)
    | (w, .ok df) =>
      let df := materialize_hive_partitions df hive
      let df := match filePath with
                | some (col, _) => { df with colNames := df.colNames ++ [col] }
                | none => df
      (w, .ok df)

/-! ## TimeUnit (`polars-core/src/datatypes/temporal/time_unit.rs`) -/

/-- The Arrow time unit enumeration (from the arrow crate). -/
inductive ArrowTimeUnit where
  | second
  | millisecond
  | microsecond
  | nanosecond
deriving DecidableEq, Repr

/-- The polars `TimeUnit` enumeration. -/
inductive TimeUnit where
  | nanoseconds
  | microseconds
  | milliseconds
deriving DecidableEq, Repr

/-- The `From<&ArrowTimeUnit> for TimeUnit` conversion; `Second` is mapped to
`Milliseconds` (the values will be cast). -/
def TimeUnit.from_arrow : ArrowTimeUnit → TimeUnit
  | .nanosecond => .nanoseconds
  | .microsecond => .microseconds
  | .millisecond => .milliseconds
  | .second => .milliseconds

/-- `TimeUnit::to_arrow`. -/
def TimeUnit.to_arrow : TimeUnit → ArrowTimeUnit
  | .nanoseconds => .nanosecond
  | .microseconds => .microsecond
  | .milliseconds => .millisecond

/-! ## Helper lemmas -/

theorem read_int32_def (q : IpcQueues) (limit : Option Nat) :
    read q .int32 limit = read_primitive q limit := rfl

theorem read_fsl_def (q : IpcQueues) (field : ArrowDataType) (size : Nat)
    (limit : Option Nat) :
    read q (.fixedSizeList field size) limit
      = read_fixed_size_list q (.fixedSizeList field size) limit := rfl

theorem skip_int32_def (q : IpcQueues) : skip q .int32 = skip_primitive q := rfl

theorem skip_fsl_def (q : IpcQueues) (field : ArrowDataType) (size : Nat) :
    skip q (.fixedSizeList field size)
      = skip_fixed_size_list q (.fixedSizeList field size) := rfl

/-- Inversion for a successful validity read: exactly one buffer slot is
popped; with a positive declared null count the bitmap has exactly the
limit-truncated declared length; with null count zero there is no bitmap. -/
theorem read_validity_ok_inv {bufs : List IpcBuffer} {node : Node}
    {limit : Option Nat} {v : Option (List Bool)} {rest : List IpcBuffer}
    (h : read_validity bufs node limit = .ok (v, rest)) :
    (∃ b, bufs = b :: rest) ∧
    (0 < node.nullCount → ∃ bl, v = some bl ∧ bl.length = limited_length node limit) ∧
    (node.nullCount = 0 → v = none) := by
  cases bufs with
  | nil => simp [read_validity] at h
  | cons b bs =>
    simp only [read_validity] at h
    by_cases hnc : 0 < node.nullCount
    · rw [if_pos hnc] at h
      by_cases hs : b.bits.length < limited_length node limit
      · rw [if_pos hs] at h; cases h
      · rw [if_neg hs] at h
        simp only [PResult.ok.injEq, Prod.mk.injEq] at h
        obtain ⟨hv, hrest⟩ := h
        subst hrest
        refine ⟨⟨b, rfl⟩, fun _ => ⟨b.bits.take (limited_length node limit), hv.symm, ?_⟩,
          fun h0 => absurd hnc (by omega)⟩
        simp [List.length_take]
        omega
    · rw [if_neg hnc] at h
      simp only [PResult.ok.injEq, Prod.mk.injEq] at h
      obtain ⟨hv, hrest⟩ := h
      subst hrest
      exact ⟨⟨b, rfl⟩, fun hc => absurd hc hnc, fun _ => hv.symm⟩

/-- Inversion for a successful `FixedSizeListArray::try_new`. -/
theorem try_new_ok_inv {dtype : ArrowDataType} {length : Nat}
    {values : ArrowArray} {validity : Option (List Bool)} {arr : ArrowArray}
    (h : fixedSizeList_try_new dtype length values validity = .ok arr) :
    values.len = length * (get_child_and_size dtype).2 ∧
    (∀ v, validity = some v → v.length = length) ∧
    arr = .fixedSizeListArr dtype length values validity := by
  unfold fixedSizeList_try_new at h
  by_cases hm : values.len = length * (get_child_and_size dtype).2
  · rw [if_neg (by simpa using hm)] at h
    cases validity with
    | none =>
      have h2 : PResult.ok (ArrowArray.fixedSizeListArr dtype length values none)
          = PResult.ok arr := h
      simp only [PResult.ok.injEq] at h2
      exact ⟨hm, by simp, h2.symm⟩
    | some v =>
      have h2 : (if v.length ≠ length then
            PResult.err (PolarsError.computeError
              "FixedSizeListArray: validity mask length must match the number of elements")
          else
            PResult.ok (ArrowArray.fixedSizeListArr dtype length values (some v)))
          = PResult.ok arr := h
      by_cases hl : v.length = length
      · rw [if_neg (by simpa using hl)] at h2
        simp only [PResult.ok.injEq] at h2
        refine ⟨hm, ?_, h2.symm⟩
        intro v2 hv2
        cases hv2
        exact hl
      · rw [if_pos (by simpa using hl)] at h2; cases h2
  · rw [if_pos (by simpa using hm)] at h; cases h

/-- Inversion for a successful `read` of a fixed-size list: one field node and
one validity buffer slot are consumed at this level, the width is nonzero, the
child is read from the remaining queues with the saturating-scaled limit, and
the result is assembled by `try_new` with length `values.len / size`. -/
theorem read_fsl_ok_inv {q : IpcQueues} {field : ArrowDataType} {size : Nat}
    {limit : Option Nat} {arr : ArrowArray} {q' : IpcQueues}
    (h : read q (.fixedSizeList field size) limit = .ok (arr, q')) :
    ∃ n ns b1 bufs1 validity values,
      q.fieldNodes = n :: ns ∧
      q.buffers = b1 :: bufs1 ∧
      read_validity q.buffers n limit = .ok (validity, bufs1) ∧
      size ≠ 0 ∧
      read { fieldNodes := ns, buffers := bufs1,
             variadicBufferCounts := q.variadicBufferCounts }
          field (fsl_child_limit limit size) = .ok (values, q') ∧
      fixedSizeList_try_new (.fixedSizeList field size) (values.len / size)
          values validity = .ok arr := by
  rw [show read q (.fixedSizeList field size) limit
        = (match try_get_field_node q.fieldNodes with
           | .err e => .err e
           | .ok (field_node, nodes1) =>
             match read_validity q.buffers field_node limit with
             | .err e => .err e
             | .ok (validity, buffers1) =>
               if size = 0 then
                 .err (.nyi "Cannot read zero sized arrays from IPC")
               else
                 match read { fieldNodes := nodes1, buffers := buffers1,
                              variadicBufferCounts := q.variadicBufferCounts }
                         field (fsl_child_limit limit size) with
                 | .err e => .err e
                 | .ok (values, q2) =>
                   match fixedSizeList_try_new (.fixedSizeList field size)
                           (values.len / size) values validity with
                   | .err e => .err e
                   | .ok arr => .ok (arr, q2)) from rfl] at h
  cases hn : q.fieldNodes with
  | nil => rw [hn] at h; simp [try_get_field_node] at h
  | cons n ns =>
    rw [hn] at h
    simp only [try_get_field_node] at h
    cases hv : read_validity q.buffers n limit with
    | err e => rw [hv] at h; cases h
    | ok p =>
      obtain ⟨validity, bufs1⟩ := p
      rw [hv] at h
      simp only at h
      by_cases hz : size = 0
      · rw [if_pos hz] at h; cases h
      · rw [if_neg hz] at h
        cases hr : read { fieldNodes := ns, buffers := bufs1,
                          variadicBufferCounts := q.variadicBufferCounts }
                      field (fsl_child_limit limit size) with
        | err e => rw [hr] at h; cases h
        | ok p2 =>
          obtain ⟨values, q2⟩ := p2
          rw [hr] at h
          simp only at h
          cases ht : fixedSizeList_try_new (.fixedSizeList field size)
                       (values.len / size) values validity with
          | err e => rw [ht] at h; cases h
          | ok arr2 =>
            rw [ht] at h
            simp only [PResult.ok.injEq, Prod.mk.injEq] at h
            obtain ⟨harr, hq2⟩ := h
            subst harr
            subst hq2
            obtain ⟨b1, hb⟩ := (read_validity_ok_inv hv).1
            exact ⟨n, ns, b1, bufs1, validity, values, rfl, hb, hv, hz, hr, ht⟩

/-- Inversion for a successful primitive read: one field node and two buffer
slots are consumed, and nothing else changes. -/
theorem read_primitive_ok_inv {q : IpcQueues} {limit : Option Nat}
    {arr : ArrowArray} {q' : IpcQueues}
    (h : read_primitive q limit = .ok (arr, q')) :
    ∃ n ns b1 b2 rest,
      q.fieldNodes = n :: ns ∧ q.buffers = b1 :: b2 :: rest ∧
      q' = { q with fieldNodes := ns, buffers := rest } := by
  unfold read_primitive at h
  cases hn : q.fieldNodes with
  | nil => rw [hn] at h; simp [try_get_field_node] at h
  | cons n ns =>
    rw [hn] at h
    simp only [try_get_field_node] at h
    cases hv : read_validity q.buffers n limit with
    | err e => rw [hv] at h; cases h
    | ok p =>
      obtain ⟨validity, bufs1⟩ := p
      rw [hv] at h
      simp only at h
      cases hb1 : bufs1 with
      | nil => rw [hb1] at h; cases h
      | cons b2 rest =>
        rw [hb1] at h
        simp only at h
        by_cases hs : b2.ints.length < limited_length n limit
        · rw [if_pos hs] at h; cases h
        · rw [if_neg hs] at h
          simp only [PResult.ok.injEq, Prod.mk.injEq] at h
          obtain ⟨b1, hb⟩ := (read_validity_ok_inv hv).1
          exact ⟨n, ns, b1, b2, rest, rfl, by rw [hb, hb1], h.2.symm⟩

/-- Whenever `read` succeeds, `skip` on the same starting queues succeeds and
leaves exactly the same queues behind. -/
theorem skip_agrees_with_read :
    ∀ (dtype : ArrowDataType) (q : IpcQueues) (limit : Option Nat)
      (arr : ArrowArray) (q' : IpcQueues),
      read q dtype limit = .ok (arr, q') → skip q dtype = .ok q' := by
  intro dtype
  induction dtype with
  | int32 =>
    intro q limit arr q' h
    rw [read_int32_def] at h
    obtain ⟨n, ns, b1, b2, rest, hn, hb, hq⟩ := read_primitive_ok_inv h
    rw [skip_int32_def]
    unfold skip_primitive
    rw [hn, hb, hq]
  | fixedSizeList field size ih =>
    intro q limit arr q' h
    obtain ⟨n, ns, b1, bufs1, validity, values, hn, hb, hv, hz, hr, ht⟩ :=
      read_fsl_ok_inv h
    have hskip := ih _ _ _ _ hr
    rw [show skip q (.fixedSizeList field size)
          = (match q.fieldNodes with
             | [] => .err (.oos "IPC: unable to fetch the field for fixed-size list. The file or stream is corrupted.")
             | _ :: nodes =>
               match q.buffers with
               | [] => .err (.oos "IPC: missing validity buffer.")
               | _ :: bufs =>
                 skip { q with fieldNodes := nodes, buffers := bufs } field) from rfl]
    rw [hn, hb]
    exact hskip

/-- Validity-reader failures are always corruption errors. -/
theorem read_validity_err_oos {bufs : List IpcBuffer} {node : Node}
    {limit : Option Nat} {e : PolarsError}
    (h : read_validity bufs node limit = .err e) : ∃ m, e = .oos m := by
  cases bufs with
  | nil =>
    have h2 : PResult.err (α := Option (List Bool) × List IpcBuffer)
        (PolarsError.oos "IPC: unable to fetch a buffer. The file or stream is corrupted.")
        = PResult.err e := h
    cases h2
    exact ⟨_, rfl⟩
  | cons b bs =>
    simp only [read_validity] at h
    by_cases hnc : 0 < node.nullCount
    · rw [if_pos hnc] at h
      by_cases hs : b.bits.length < limited_length node limit
      · rw [if_pos hs] at h
        cases h
        exact ⟨_, rfl⟩
      · rw [if_neg hs] at h; cases h
    · rw [if_neg hnc] at h; cases h

/-- `FixedSizeListArray::try_new` failures are always compute errors. -/
theorem try_new_err_compute {dtype : ArrowDataType} {length : Nat}
    {values : ArrowArray} {validity : Option (List Bool)} {e : PolarsError}
    (h : fixedSizeList_try_new dtype length values validity = .err e) :
    ∃ m, e = .computeError m := by
  unfold fixedSizeList_try_new at h
  by_cases hm : values.len = length * (get_child_and_size dtype).2
  · rw [if_neg (by simpa using hm)] at h
    cases validity with
    | none =>
      have h2 : PResult.ok (ArrowArray.fixedSizeListArr dtype length values none)
          = PResult.err e := h
      cases h2
    | some v =>
      have h2 : (if v.length ≠ length then
            PResult.err (PolarsError.computeError
              "FixedSizeListArray: validity mask length must match the number of elements")
          else
            PResult.ok (ArrowArray.fixedSizeListArr dtype length values (some v)))
          = PResult.err e := h
      by_cases hl : v.length = length
      · rw [if_neg (by simpa using hl)] at h2; cases h2
      · rw [if_pos (by simpa using hl)] at h2
        cases h2
        exact ⟨_, rfl⟩
  · rw [if_pos (by simpa using hm)] at h
    cases h
    exact ⟨_, rfl⟩

/-- Primitive-decoder failures are always corruption errors. -/
theorem read_primitive_err_oos {q : IpcQueues} {limit : Option Nat}
    {e : PolarsError} (h : read_primitive q limit = .err e) : ∃ m, e = .oos m := by
  unfold read_primitive at h
  cases hn : q.fieldNodes with
  | nil =>
    rw [hn] at h
    simp only [try_get_field_node] at h
    cases h
    exact ⟨_, rfl⟩
  | cons n ns =>
    rw [hn] at h
    simp only [try_get_field_node] at h
    cases hv : read_validity q.buffers n limit with
    | err e2 =>
      rw [hv] at h
      cases h
      exact read_validity_err_oos hv
    | ok p =>
      obtain ⟨validity, bufs1⟩ := p
      rw [hv] at h
      simp only at h
      cases hb1 : bufs1 with
      | nil =>
        rw [hb1] at h
        cases h
        exact ⟨_, rfl⟩
      | cons b2 rest =>
        rw [hb1] at h
        simp only at h
        by_cases hs : b2.ints.length < limited_length n limit
        · rw [if_pos hs] at h
          cases h
          exact ⟨_, rfl⟩
        · rw [if_neg hs] at h; cases h

/-- On a dtype whose fixed-size-list widths are all positive, `read` never
fails with a not-yet-implemented error: the zero-width rejection is the only
source of that error class. -/
theorem read_err_not_nyi :
    ∀ (dtype : ArrowDataType), dtype.zero_free = true →
      ∀ (q : IpcQueues) (limit : Option Nat) (e : PolarsError),
        read q dtype limit = .err e → ∀ m, e ≠ .nyi m := by
  intro dtype
  induction dtype with
  | int32 =>
    intro _ q limit e h m hm
    rw [read_int32_def] at h
    obtain ⟨s, hs⟩ := read_primitive_err_oos h
    rw [hs] at hm
    cases hm
  | fixedSizeList field size ih =>
    intro hzf q limit e h m hm
    subst hm
    have hz : 0 < size ∧ field.zero_free = true := by
      simpa [ArrowDataType.zero_free] using hzf
    rw [show read q (.fixedSizeList field size) limit
          = (match try_get_field_node q.fieldNodes with
             | .err e => .err e
             | .ok (field_node, nodes1) =>
               match read_validity q.buffers field_node limit with
               | .err e => .err e
               | .ok (validity, buffers1) =>
                 if size = 0 then
                   .err (.nyi "Cannot read zero sized arrays from IPC")
                 else
                   match read { fieldNodes := nodes1, buffers := buffers1,
                                variadicBufferCounts := q.variadicBufferCounts }
                           field (fsl_child_limit limit size) with
                   | .err e => .err e
                   | .ok (values, q2) =>
                     match fixedSizeList_try_new (.fixedSizeList field size)
                             (values.len / size) values validity with
                     | .err e => .err e
                     | .ok arr => .ok (arr, q2)) from rfl] at h
    cases hn : q.fieldNodes with
    | nil =>
      rw [hn] at h
      simp only [try_get_field_node] at h
      cases h
    | cons n ns =>
      rw [hn] at h
      simp only [try_get_field_node] at h
      cases hv : read_validity q.buffers n limit with
      | err e2 =>
        rw [hv] at h
        cases h
        obtain ⟨s, hs⟩ := read_validity_err_oos hv
        cases hs
      | ok p =>
        obtain ⟨validity, bufs1⟩ := p
        rw [hv] at h
        simp only at h
        rw [if_neg (by omega)] at h
        cases hr : read { fieldNodes := ns, buffers := bufs1,
                          variadicBufferCounts := q.variadicBufferCounts }
                      field (fsl_child_limit limit size) with
        | err e2 =>
          rw [hr] at h
          cases h
          exact ih hz.2 _ _ _ hr m rfl
        | ok p2 =>
          obtain ⟨values, q2⟩ := p2
          rw [hr] at h
          simp only at h
          cases ht : fixedSizeList_try_new (.fixedSizeList field size)
                       (values.len / size) values validity with
          | err e2 =>
            rw [ht] at h
            cases h
            obtain ⟨s, hs⟩ := try_new_err_compute ht
            cases hs
          | ok arr2 =>
            rw [ht] at h
            cases h

/-- Reading a fixed-size list from an exhausted node queue fails with the
corruption error of `try_get_field_node`. -/
theorem read_fsl_empty_nodes (dtype : ArrowDataType) (limit : Option Nat)
    (q : IpcQueues) (h : q.fieldNodes = []) :
    read_fixed_size_list q dtype limit
      = .err (.oos "IPC: unable to fetch the field node. The file or stream is corrupted.") := by
  unfold read_fixed_size_list
  rw [h]
  rfl

/-- Reading a fixed-size list with a node present but an exhausted buffer
queue fails with the corruption error of the validity reader. -/
theorem read_fsl_empty_buffers (dtype : ArrowDataType) (limit : Option Nat)
    (q : IpcQueues) (n : Node) (ns : List Node)
    (hn : q.fieldNodes = n :: ns) (hb : q.buffers = []) :
    read_fixed_size_list q dtype limit
      = .err (.oos "IPC: unable to fetch a buffer. The file or stream is corrupted.") := by
  unfold read_fixed_size_list
  rw [hn]
  simp only [try_get_field_node]
  rw [hb]
  rfl

/-- Skipping a fixed-size list from an exhausted node queue fails with the
corruption error of the source. -/
theorem skip_fsl_empty_nodes (dtype : ArrowDataType) (q : IpcQueues)
    (h : q.fieldNodes = []) :
    skip_fixed_size_list q dtype
      = .err (.oos "IPC: unable to fetch the field for fixed-size list. The file or stream is corrupted.") := by
  unfold skip_fixed_size_list
  rw [h]

/-- Skipping a fixed-size list with a node present but an exhausted buffer
queue fails with the missing-validity-buffer corruption error. -/
theorem skip_fsl_empty_buffers (dtype : ArrowDataType) (q : IpcQueues)
    (n : Node) (ns : List Node) (hn : q.fieldNodes = n :: ns)
    (hb : q.buffers = []) :
    skip_fixed_size_list q dtype = .err (.oos "IPC: missing validity buffer.") := by
  unfold skip_fixed_size_list
  rw [hn, hb]

/-! ## Claims -/

/-- C1: whenever `read_fixed_size_list` succeeds, `skip_fixed_size_list` pops
exactly one field node and one buffer (the validity slot) from the front of
the queues, recursively skips the child type, succeeds, and leaves the queues
in exactly the state the successful read leaves them — so a sibling column
decoded afterwards reads the same queue entries in either case. -/
theorem C1_skip_matches_read (field : ArrowDataType) (size : Nat)
    (q : IpcQueues) (limit : Option Nat) (arr : ArrowArray) (q' : IpcQueues)
    (h : read_fixed_size_list q (.fixedSizeList field size) limit = .ok (arr, q')) :
    skip_fixed_size_list q (.fixedSizeList field size) = .ok q' ∧
    (∀ n ns b bs, q.fieldNodes = n :: ns → q.buffers = b :: bs →
      skip_fixed_size_list q (.fixedSizeList field size)
        = skip { q with fieldNodes := ns, buffers := bs } field) ∧
    (∀ (sib : ArrowDataType) (lim2 : Option Nat) (qs : IpcQueues),
      skip_fixed_size_list q (.fixedSizeList field size) = .ok qs →
      read qs sib lim2 = read q' sib lim2) := by
  rw [← read_fsl_def] at h
  have hskip := skip_agrees_with_read _ _ _ _ _ h
  rw [skip_fsl_def] at hskip
  refine ⟨hskip, ?_, ?_⟩
  · intro n ns b bs hn hb
    unfold skip_fixed_size_list
    rw [hn, hb]
    rfl
  · intro sib lim2 qs hqs
    rw [hskip] at hqs
    cases hqs
    rfl

/-- Witness for C1 at a width-2 fixed-size-list column over four int values. -/
theorem C1_witness :
    skip_fixed_size_list
        ⟨[⟨2, 0⟩, ⟨4, 0⟩], [⟨[], []⟩, ⟨[], []⟩, ⟨[], [1, 2, 3, 4]⟩], []⟩
        (.fixedSizeList .int32 2) = .ok ⟨[], [], []⟩ :=
  (C1_skip_matches_read .int32 2
      ⟨[⟨2, 0⟩, ⟨4, 0⟩], [⟨[], []⟩, ⟨[], []⟩, ⟨[], [1, 2, 3, 4]⟩], []⟩ none
      (.fixedSizeListArr (.fixedSizeList .int32 2) 2 (.int32Arr [1, 2, 3, 4] none) none)
      ⟨[], [], []⟩ rfl).1

/-- C2 counterexample: with a zero declared null count the decoder succeeds
even though the computed logical length (2) disagrees with the popped node
declared length (5); no data-integrity error is raised. -/
theorem C2_counterexample :
    read_fixed_size_list
        ⟨[⟨5, 0⟩, ⟨6, 0⟩], [⟨[], []⟩, ⟨[], []⟩, ⟨[], [1, 2, 3, 4, 5, 6]⟩], []⟩
        (.fixedSizeList .int32 3) none
      = .ok (.fixedSizeListArr (.fixedSizeList .int32 3) 2
               (.int32Arr [1, 2, 3, 4, 5, 6] none) none, ⟨[], [], []⟩) ∧
    (ArrowArray.fixedSizeListArr (.fixedSizeList .int32 3) 2
        (.int32Arr [1, 2, 3, 4, 5, 6] none) none).len ≠ 5 :=
  ⟨rfl, by decide⟩

/-- C2 (amended): a successful `read_fixed_size_list` has logical length
`values.len / size`, with the child length an exact multiple of `size` and a
present validity bitmap of exactly that length, both enforced by `try_new`;
the popped node declared length is enforced only indirectly — when the node
null count is positive and no limit truncates the bitmap, the result length
equals the declared length — and is not checked when the null count is
zero. -/
theorem C2_length_validation (field : ArrowDataType) (size : Nat)
    (q : IpcQueues) (limit : Option Nat) (arr : ArrowArray) (q' : IpcQueues)
    (h : read_fixed_size_list q (.fixedSizeList field size) limit = .ok (arr, q')) :
    ∃ values validity,
      arr = .fixedSizeListArr (.fixedSizeList field size) (values.len / size)
              values validity ∧
      (ArrowArray.len values / size) * size = ArrowArray.len values ∧
      (∀ v, validity = some v → v.length = values.len / size) ∧
      (∀ n ns, q.fieldNodes = n :: ns → 0 < n.nullCount → limit = none →
        arr.len = n.length) := by
  rw [← read_fsl_def] at h
  obtain ⟨n, ns, b1, bufs1, validity, values, hn, hb, hv, hz, hr, ht⟩ :=
    read_fsl_ok_inv h
  obtain ⟨hm, hval, harr⟩ := try_new_ok_inv ht
  refine ⟨values, validity, harr, hm.symm, hval, ?_⟩
  intro n2 ns2 hn2 hnc hlim
  rw [hn] at hn2
  cases hn2
  obtain ⟨bl, hbl, hbllen⟩ := (read_validity_ok_inv hv).2.1 hnc
  have hvl := hval bl hbl
  rw [harr]
  show values.len / size = n.length
  rw [← hvl, hbllen, hlim]
  rfl

/-- Witness for the amended C2 at a column with a positive null count, where
the declared length is recovered through the validity bitmap. -/
theorem C2_witness :
    ∃ values validity,
      (ArrowArray.fixedSizeListArr (.fixedSizeList .int32 2) 2
          (.int32Arr [1, 2, 3, 4] none) (some [true, false]))
        = .fixedSizeListArr (.fixedSizeList .int32 2) (values.len / 2) values validity ∧
      (ArrowArray.len values / 2) * 2 = ArrowArray.len values ∧
      (∀ v, validity = some v → v.length = values.len / 2) ∧
      (∀ n ns,
        (IpcQueues.mk [⟨2, 1⟩, ⟨4, 0⟩] [⟨[true, false], []⟩, ⟨[], []⟩, ⟨[], [1, 2, 3, 4]⟩]
            []).fieldNodes = n :: ns →
        0 < n.nullCount → (none : Option Nat) = none →
        (ArrowArray.fixedSizeListArr (.fixedSizeList .int32 2) 2
            (.int32Arr [1, 2, 3, 4] none) (some [true, false])).len = n.length) :=
  C2_length_validation .int32 2
    ⟨[⟨2, 1⟩, ⟨4, 0⟩], [⟨[true, false], []⟩, ⟨[], []⟩, ⟨[], [1, 2, 3, 4]⟩], []⟩ none
    (.fixedSizeListArr (.fixedSizeList .int32 2) 2
        (.int32Arr [1, 2, 3, 4] none) (some [true, false]))
    ⟨[], [], []⟩ rfl

/-- C3: decoding a zero-width fixed-size list never succeeds; once the node
pop and the validity read go through, it fails with exactly the explicit
not-yet-implemented error; and for a positive width over a child type with
positive widths throughout, the decoder never produces that error class at
all, so the check passes and decoding proceeds. -/
theorem C3_zero_size_rejected (field : ArrowDataType) (q : IpcQueues)
    (limit : Option Nat) :
    (∀ arr q', read_fixed_size_list q (.fixedSizeList field 0) limit ≠ .ok (arr, q')) ∧
    (∀ n ns v bufs1, q.fieldNodes = n :: ns →
      read_validity q.buffers n limit = .ok (v, bufs1) →
      read_fixed_size_list q (.fixedSizeList field 0) limit
        = .err (.nyi "Cannot read zero sized arrays from IPC")) ∧
    (∀ size, 0 < size → field.zero_free = true →
      ∀ e, read_fixed_size_list q (.fixedSizeList field size) limit = .err e →
        ∀ m, e ≠ .nyi m) := by
  refine ⟨?_, ?_, ?_⟩
  · intro arr q' h
    rw [← read_fsl_def] at h
    obtain ⟨_, _, _, _, _, _, _, _, _, hz, _, _⟩ := read_fsl_ok_inv h
    exact hz rfl
  · intro n ns v bufs1 hn hv
    unfold read_fixed_size_list
    rw [hn]
    simp only [try_get_field_node]
    rw [hv]
    simp [get_child_and_size]
  · intro size hpos hzf e h m
    rw [← read_fsl_def] at h
    exact read_err_not_nyi (.fixedSizeList field size)
      (by simp [ArrowDataType.zero_free, hzf]; omega) _ _ _ h m

/-- Witness for C3: concrete zero-width decode failing with the explicit
not-yet-implemented error. -/
theorem C3_witness :
    read_fixed_size_list ⟨[⟨1, 1⟩], [⟨[true], []⟩], []⟩ (.fixedSizeList .int32 0) none
      = .err (.nyi "Cannot read zero sized arrays from IPC") :=
  (C3_zero_size_rejected .int32 ⟨[⟨1, 1⟩], [⟨[true], []⟩], []⟩ none).2.1
    ⟨1, 1⟩ [] (some [true]) [] rfl rfl

/-- C4 counterexample: skipping a zero-width fixed-size list is silently
accepted — `skip_fixed_size_list` succeeds, with no unimplemented-feature
error. -/
theorem C4_counterexample :
    skip_fixed_size_list ⟨[⟨1, 0⟩, ⟨2, 0⟩], [⟨[], []⟩, ⟨[], []⟩, ⟨[], []⟩], []⟩
        (.fixedSizeList .int32 0) = .ok ⟨[], [], []⟩ := rfl

/-- C4 (amended): `skip_fixed_size_list` performs no width check at all — its
behaviour is entirely independent of the declared width, so a zero width is
processed exactly like any other; only `read_fixed_size_list` rejects width
zero. -/
theorem C4_skip_ignores_size (field : ArrowDataType) (m n : Nat) (q : IpcQueues) :
    skip_fixed_size_list q (.fixedSizeList field m)
      = skip_fixed_size_list q (.fixedSizeList field n) := rfl

/-- C5: the limit handed to the child decoder is
`limit.map(|x| x.saturating_mul(size))`: a `none` limit stays `none`, a
`some n` limit becomes `some (n * size)` clamped at `usize::MAX`, and
`read_fixed_size_list` passes exactly this scaled limit to the recursive
child `read`. -/
theorem C5_child_limit (field : ArrowDataType) (size n : Nat) (q : IpcQueues)
    (limit : Option Nat) :
    fsl_child_limit none size = none ∧
    fsl_child_limit (some n) size
      = some (if n * size ≤ USIZE_MAX then n * size else USIZE_MAX) ∧
    (∀ node ns v bufs1, q.fieldNodes = node :: ns →
      read_validity q.buffers node limit = .ok (v, bufs1) → size ≠ 0 →
      read_fixed_size_list q (.fixedSizeList field size) limit
        = (match read { fieldNodes := ns, buffers := bufs1,
                        variadicBufferCounts := q.variadicBufferCounts }
                 field (fsl_child_limit limit size) with
           | .err e => .err e
           | .ok (values, q2) =>
             match fixedSizeList_try_new (.fixedSizeList field size)
                     (values.len / size) values v with
             | .err e => .err e
             | .ok arr => .ok (arr, q2))) := by
  refine ⟨rfl, ?_, ?_⟩
  · simp [fsl_child_limit, saturating_mul, Nat.min_def]
  · intro node ns v bufs1 hn hv hsz
    unfold read_fixed_size_list
    rw [hn]
    simp only [try_get_field_node]
    rw [hv]
    simp only [get_child_and_size]
    rw [if_neg hsz]

/-- Witness for C5 at a width-2 list with limit 1: the child is read with the
scaled limit. -/
theorem C5_witness :
    read_fixed_size_list ⟨[⟨1, 0⟩, ⟨2, 0⟩], [⟨[], []⟩, ⟨[], []⟩, ⟨[], [5, 6]⟩], []⟩
        (.fixedSizeList .int32 2) (some 1)
      = (match read ⟨[⟨2, 0⟩], [⟨[], []⟩, ⟨[], [5, 6]⟩], []⟩ .int32
               (fsl_child_limit (some 1) 2) with
         | .err e => .err e
         | .ok (values, q2) =>
           match fixedSizeList_try_new (.fixedSizeList .int32 2)
                   (values.len / 2) values none with
           | .err e => .err e
           | .ok arr => .ok (arr, q2)) :=
  (C5_child_limit .int32 2 1
      ⟨[⟨1, 0⟩, ⟨2, 0⟩], [⟨[], []⟩, ⟨[], []⟩, ⟨[], [5, 6]⟩], []⟩ (some 1)).2.2
    ⟨1, 0⟩ [⟨2, 0⟩] none [⟨[], []⟩, ⟨[], [5, 6]⟩] rfl rfl (by decide)

/-- C6: wherever `read_fixed_size_list` or `skip_fixed_size_list` must pop an
entry and finds its queue empty, the result is a corruption (out-of-spec)
error value — never an ordinary end-of-data result. -/
theorem C6_exhaustion_is_corruption (dtype : ArrowDataType) (q : IpcQueues)
    (limit : Option Nat) :
    (q.fieldNodes = [] →
      read_fixed_size_list q dtype limit
          = .err (.oos "IPC: unable to fetch the field node. The file or stream is corrupted.") ∧
      skip_fixed_size_list q dtype
          = .err (.oos "IPC: unable to fetch the field for fixed-size list. The file or stream is corrupted.")) ∧
    (∀ n ns, q.fieldNodes = n :: ns → q.buffers = [] →
      read_fixed_size_list q dtype limit
          = .err (.oos "IPC: unable to fetch a buffer. The file or stream is corrupted.") ∧
      skip_fixed_size_list q dtype = .err (.oos "IPC: missing validity buffer.")) :=
  ⟨fun h => ⟨read_fsl_empty_nodes dtype limit q h, skip_fsl_empty_nodes dtype q h⟩,
   fun n ns hn hb => ⟨read_fsl_empty_buffers dtype limit q n ns hn hb,
                      skip_fsl_empty_buffers dtype q n ns hn hb⟩⟩

/-- Witness for C6 at two concrete exhausted-queue states. -/
theorem C6_witness :
    (read_fixed_size_list ⟨[], [], []⟩ (.fixedSizeList .int32 2) none
        = .err (.oos "IPC: unable to fetch the field node. The file or stream is corrupted.")) ∧
    (skip_fixed_size_list ⟨[⟨3, 0⟩], [], []⟩ (.fixedSizeList .int32 2)
        = .err (.oos "IPC: missing validity buffer.")) :=
  ⟨((C6_exhaustion_is_corruption (.fixedSizeList .int32 2) ⟨[], [], []⟩ none).1 rfl).1,
   ((C6_exhaustion_is_corruption (.fixedSizeList .int32 2) ⟨[⟨3, 0⟩], [], []⟩ none).2
      ⟨3, 0⟩ [] rfl rfl).2⟩

/-- An error recognized as the compressed-memory-map error is exactly the
compute error with the canonical message. -/
theorem compressed_err_eq {e : PolarsError} (h : isCompressedMmapErr e = true) :
    e = .computeError mmapErrMsg := by
  cases e with
  | computeError s =>
    simp only [isCompressedMmapErr, decide_eq_true_eq] at h
    rw [h]
  | oos s => simp [isCompressedMmapErr] at h
  | nyi s => simp [isCompressedMmapErr] at h
  | ioError s => simp [isCompressedMmapErr] at h

/-- On the compressed-file error, `check_mmap_err` emits the one diagnostic
and recovers. -/
theorem check_mmap_err_compressed {e : PolarsError}
    (h : isCompressedMmapErr e = true) :
    check_mmap_err e = ([mmapWarning], .ok ()) := by
  rw [compressed_err_eq h]
  simp [check_mmap_err]

/-- On every other error, `check_mmap_err` emits nothing and re-raises. -/
theorem check_mmap_err_other {e : PolarsError}
    (h : isCompressedMmapErr e = false) :
    check_mmap_err e = ([], .err e) := by
  cases e with
  | computeError s =>
    simp only [isCompressedMmapErr, decide_eq_false_iff_not] at h
    simp [check_mmap_err, h]
  | oos s => rfl
  | nyi s => rfl
  | ioError s => rfl

/-- C7: when the memory-mapped path of `finish` is taken, a success is
returned as is with no diagnostic; a failure whose cause is specifically the
compressed-file error falls back to the streaming path, emits exactly one
diagnostic, and still returns the decoded DataFrame; a failure with any
other cause propagates as fatal with no diagnostic. -/
theorem C7_mmap_fallback (r : IpcReaderM) (m : FileMetadataM) (sch : ArrowSchemaM)
    (df : DataFrameM) (e : PolarsError)
    (hmeta : r.metadata = some m) (hsch : r.schema = some sch)
    (hproj : r.projection = none) (hcols : r.columns = none)
    (hhive : r.hive_partition_columns = none) (hfp : r.include_file_path = none)
    (hmm : r.memory_map.isSome = true) (hfile : r.readerIsFile = true) :
    (∀ dfm, r.mmapResult = .ok dfm → r.finish = ([], .ok dfm)) ∧
    (r.mmapResult = .err e → isCompressedMmapErr e = true →
      r.streamResult = .ok df → r.finish = ([mmapWarning], .ok df)) ∧
    (r.mmapResult = .err e → isCompressedMmapErr e = false →
      r.finish = ([], .err e)) := by
  refine ⟨?_, ?_, ?_⟩
  · intro dfm hok
    simp [IpcReaderM.finish, IpcReaderM.get_metadata, materialize_hive_partitions,
          hsch, hproj, hcols, hhive, hfp, hmm, hfile, hmeta, hok]
  · intro herr hcomp hstream
    simp [IpcReaderM.finish, IpcReaderM.get_metadata, materialize_hive_partitions,
          hsch, hproj, hcols, hhive, hfp, hmm, hfile, hmeta, herr, hstream,
          check_mmap_err_compressed hcomp]
  · intro herr hcomp
    simp [IpcReaderM.finish, IpcReaderM.get_metadata, materialize_hive_partitions,
          hsch, hproj, hcols, hhive, hfp, hmm, hfile, hmeta, herr,
          check_mmap_err_other hcomp]

/-- Witness for C7: a concrete reader whose memory-mapped path fails with the
compressed-file error falls back to streaming with exactly one diagnostic. -/
theorem C7_witness :
    IpcReaderM.finish
        ⟨true, none, none, none, none, none, none, some "f.ipc",
         some ⟨⟨["a"]⟩, none⟩, some ⟨["a"]⟩, 1, .ok ⟨⟨["a"]⟩, none⟩, true,
         .err (.computeError "memory_map can only be done on uncompressed IPC files"),
         .ok 3, .ok [], .ok ⟨3, ["a"]⟩⟩
      = ([mmapWarning], .ok ⟨3, ["a"]⟩) :=
  (C7_mmap_fallback
      ⟨true, none, none, none, none, none, none, some "f.ipc",
       some ⟨⟨["a"]⟩, none⟩, some ⟨["a"]⟩, 1, .ok ⟨⟨["a"]⟩, none⟩, true,
       .err (.computeError "memory_map can only be done on uncompressed IPC files"),
       .ok 3, .ok [], .ok ⟨3, ["a"]⟩⟩
      ⟨⟨["a"]⟩, none⟩ ⟨["a"]⟩ ⟨3, ["a"]⟩
      (.computeError "memory_map can only be done on uncompressed IPC files")
      rfl rfl rfl rfl rfl rfl rfl rfl).2.1 rfl (by decide) rfl

/-- C8: a present-but-empty projection short-circuits `finish` to a
column-less DataFrame whose height is `n_rows` when set and otherwise the
row count read from the file, with the row-index column still injected when
configured; a `none` projection instead proceeds to the decoding path and
returns the streamed DataFrame. -/
theorem C8_empty_projection (r : IpcReaderM) (sch : ArrowSchemaM) (v : Nat)
    (hsch : r.schema = some sch) (hproj : r.projection = some [])
    (hhive : r.hive_partition_columns = none) (hfp : r.include_file_path = none) :
    ((r.n_rows = some v ∨ (r.n_rows = none ∧ r.getRowCountResult = .ok v)) →
      r.finish = ([], .ok ⟨v, match r.row_index with
                             | some ri => [ri.name]
                             | none => []⟩)) ∧
    (∀ (r2 : IpcReaderM) (m2 : FileMetadataM) (df : DataFrameM),
      r2.projection = none → r2.metadata = some m2 → r2.schema = some sch →
      r2.columns = none → r2.hive_partition_columns = none →
      r2.include_file_path = none → r2.memory_map = none →
      r2.streamResult = .ok df → r2.finish = ([], .ok df)) := by
  constructor
  · intro hrows
    cases hri : r.row_index with
    | none =>
      rcases hrows with hn | ⟨hn, hc⟩
      · simp [IpcReaderM.finish, materialize_hive_partitions,
              DataFrameM.empty_with_height, DataFrameM.with_row_index,
              hsch, hproj, hhive, hfp, hri, hn]
      · simp [IpcReaderM.finish, materialize_hive_partitions,
              DataFrameM.empty_with_height, DataFrameM.with_row_index,
              hsch, hproj, hhive, hfp, hri, hn, hc]
    | some ri =>
      rcases hrows with hn | ⟨hn, hc⟩
      · simp [IpcReaderM.finish, materialize_hive_partitions,
              DataFrameM.empty_with_height, DataFrameM.with_row_index,
              hsch, hproj, hhive, hfp, hri, hn]
      · simp [IpcReaderM.finish, materialize_hive_partitions,
              DataFrameM.empty_with_height, DataFrameM.with_row_index,
              hsch, hproj, hhive, hfp, hri, hn, hc]
  · intro r2 m2 df hproj2 hmeta2 hsch2 hcols2 hhive2 hfp2 hmm2 hstream2
    simp [IpcReaderM.finish, IpcReaderM.get_metadata, materialize_hive_partitions,
          hsch2, hproj2, hcols2, hhive2, hfp2, hmm2, hmeta2, hstream2]

/-- Witness for C8: a concrete reader with an empty projection, three rows and
a configured row index short-circuits to a height-3 frame holding only the
row-index column. -/
theorem C8_witness :
    IpcReaderM.finish
        ⟨true, none, some [], none, none, none, some ⟨"idx", 0⟩, none,
         none, some ⟨["a"]⟩, 0, .err (.ioError "y"), false, .err (.ioError "x"),
         .ok 3, .ok [], .err (.ioError "z")⟩
      = ([], .ok ⟨3, ["idx"]⟩) :=
  (C8_empty_projection
      ⟨true, none, some [], none, none, none, some ⟨"idx", 0⟩, none,
       none, some ⟨["a"]⟩, 0, .err (.ioError "y"), false, .err (.ioError "x"),
       .ok 3, .ok [], .err (.ioError "z")⟩
      ⟨["a"]⟩ 3 rfl rfl rfl rfl).1 (Or.inr ⟨rfl, rfl⟩)

/-- C9: file-level metadata is read at most once. From a reader with an empty
cache, `get_metadata` performs exactly one source read and caches the metadata
and schema; the returned reader answers every subsequent `get_metadata`,
`schema` and `custom_metadata` call from the cache with its state (including
the source-read count) unchanged, and repeated `schema` calls return equal
results. -/
theorem C9_metadata_cached (r : IpcReaderM) (m : FileMetadataM)
    (hmeta : r.metadata = none) (hread : r.readFileMetadataResult = .ok m) :
    r.get_metadata = .ok (m, { r with metadata := some m, schema := some m.schema,
                                      readCount := r.readCount + 1 }) ∧
    (∀ r1, r.get_metadata = .ok (m, r1) →
      r1.get_metadata = .ok (m, r1) ∧
      r1.readCount = r.readCount + 1 ∧
      r1.schemaFn = .ok (m.schema, r1) ∧
      r1.custom_metadata = .ok (m.customSchemaMetadata, r1) ∧
      r.schemaFn = .ok (m.schema, r1)) := by
  have h1 : r.get_metadata
      = .ok (m, { r with metadata := some m, schema := some m.schema,
                         readCount := r.readCount + 1 }) := by
    unfold IpcReaderM.get_metadata
    rw [hmeta, hread]
  refine ⟨h1, ?_⟩
  intro r1 hr1
  rw [h1] at hr1
  simp only [PResult.ok.injEq, Prod.mk.injEq] at hr1
  obtain ⟨-, hr1⟩ := hr1
  subst hr1
  refine ⟨rfl, rfl, rfl, rfl, ?_⟩
  unfold IpcReaderM.schemaFn
  rw [h1]
  rfl

/-- Witness for C9 at a concrete reader with an empty metadata cache. -/
theorem C9_witness :
    IpcReaderM.get_metadata
        ⟨true, none, none, none, none, none, none, none, none, none, 0,
         .ok ⟨⟨["a"]⟩, some [("k", "v")]⟩, false, .err (.ioError "x"), .ok 0,
         .ok [], .ok ⟨0, []⟩⟩
      = .ok (⟨⟨["a"]⟩, some [("k", "v")]⟩,
             ⟨true, none, none, none, none, none, none, none,
              some ⟨⟨["a"]⟩, some [("k", "v")]⟩, some ⟨["a"]⟩, 1,
              .ok ⟨⟨["a"]⟩, some [("k", "v")]⟩, false, .err (.ioError "x"), .ok 0,
              .ok [], .ok ⟨0, []⟩⟩) :=
  (C9_metadata_cached
      ⟨true, none, none, none, none, none, none, none, none, none, 0,
       .ok ⟨⟨["a"]⟩, some [("k", "v")]⟩, false, .err (.ioError "x"), .ok 0,
       .ok [], .ok ⟨0, []⟩⟩
      ⟨⟨["a"]⟩, some [("k", "v")]⟩ rfl rfl).1

/-- C10: every `TimeUnit` round-trips through `to_arrow` and the
`From<&ArrowTimeUnit>` conversion; the reverse direction is not a round-trip
because `ArrowTimeUnit::Second` also converts to `TimeUnit::Milliseconds`. -/
theorem C10_time_unit_roundtrip :
    (∀ tu : TimeUnit, TimeUnit.from_arrow tu.to_arrow = tu) ∧
    TimeUnit.from_arrow .second = .milliseconds ∧
    (TimeUnit.from_arrow .second).to_arrow ≠ .second := by
  refine ⟨?_, rfl, by decide⟩
  intro tu
  cases tu <;> rfl

end Polars
